import Mathlib

/-!
Shallow embedding of the smoothed z-score peak detector (`src/lib.rs`).

The Rust source works over `rust_decimal::Decimal` (an exact decimal type
whose `sqrt` is an approximation and returns `None` on negative input).
The embedding uses `ℚ` as the numeric carrier; `Decimal::sqrt` is modelled
by `decimalSqrt`, a terminating bisection under-approximation of the square
root that likewise rejects negative input.  `Vec<Decimal>` is modelled by
`List ℚ` together with the capacity `lag` recorded in the detector record,
matching `Vec::with_capacity(lag)` and the `window.len() < window.capacity()`
fill check.  `Option::unwrap` is modelled by `unwrapD` (its panic branch is
proved unreachable below).
-/

/-- The `Peak` enum of the source: `High` and `Low` classifications. -/
inductive Peak : Type
  | Low
  | High
deriving DecidableEq

/-- Bisection refinement step for the square-root model: after `n` steps the
interval `[lo, hi]` has shrunk by `2 ^ n` while keeping `lo ^ 2 ≤ q`. -/
def sqrtAux (q : ℚ) : Nat → ℚ → ℚ → ℚ
  | 0, lo, _ => lo
  | n + 1, lo, hi =>
    let mid := (lo + hi) / 2
    if mid * mid ≤ q then sqrtAux q n mid hi else sqrtAux q n lo mid

/-- Square-root approximation on nonnegative rationals, by 48 bisection
steps on `[0, max q 1]` (error at most `max q 1 / 2 ^ 48`). -/
def sqrtApprox (q : ℚ) : ℚ := sqrtAux q 48 0 (max q 1)

/-- Model of `rust_decimal`'s `Decimal::sqrt`: an approximate square root
that is `none` exactly on negative input. -/
def decimalSqrt (q : ℚ) : Option ℚ := if q < 0 then none else some (sqrtApprox q)

/-- Model of `Option::unwrap` as used in `stats`; the `none` (panic) branch
is proved unreachable for the argument `stats` passes. -/
def unwrapD (o : Option ℚ) : ℚ := o.getD 0

/-- The `PeaksDetector` struct.  `lag` records the capacity the window `Vec`
was allocated with (`Vec::with_capacity(lag)`). -/
structure PeaksDetector where
  threshold : ℚ
  influence : ℚ
  window : List ℚ
  lag : Nat
deriving DecidableEq

/-- `PeaksDetector::new(lag, threshold, influence)`.  The
`assert!(influence >= 0 && influence <= 1)` is modelled by returning
`none` (panic) when the assertion fails. -/
def PeaksDetector.new (lag : Nat) (threshold influence : ℚ) : Option PeaksDetector :=
  if 0 ≤ influence ∧ influence ≤ 1 then
    some { threshold := threshold, influence := influence, window := [], lag := lag }
  else
    none

/-- `PeaksDetector::stats`: mean and standard deviation of the window. -/
def PeaksDetector.stats (d : PeaksDetector) : Option (ℚ × ℚ) :=
  if d.window.isEmpty then
    none
  else
    let window_len : ℚ := d.window.length
    let sum : ℚ := d.window.sum
    let mean : ℚ := sum / window_len
    let sq_sum : ℚ := (d.window.map (fun v => (v - mean) * (v - mean))).sum
    let variance : ℚ := sq_sum / window_len
    let stddev : ℚ := unwrapD (decimalSqrt variance)
    some (mean, stddev)

/-- `PeaksDetector::z_score_signal`: the single mutating operation.  State
passing is explicit: the returned pair is (classification, updated
detector).  `window.remove(0)` is `List.tail`, `window.push` appends. -/
def PeaksDetector.z_score_signal (d : PeaksDetector) (value : ℚ) :
    Option Peak × PeaksDetector :=
  if d.window.length < d.lag then
    (none, { d with window := d.window ++ [value] })
  else
    match d.stats, d.window.getLast? with
    | some (mean, stddev), some window_last =>
      let popped : PeaksDetector := { d with window := d.window.tail }
      if |value - mean| > d.threshold * stddev then
        let next_value := value * d.influence + (1 - d.influence) * window_last
        (some (if value > mean then Peak.High else Peak.Low),
          { popped with window := popped.window ++ [next_value] })
      else
        (none, { popped with window := popped.window ++ [value] })
    | _, _ => (none, d)

/-- Sequential driving of the detector: feed every value of a list in order,
collecting the classification of each feed and the final detector state. -/
def feedAll (d : PeaksDetector) : List ℚ → List (Option Peak) × PeaksDetector
  | [] => ([], d)
  | v :: vs =>
    let r := d.z_score_signal v
    let rest := feedAll r.2 vs
    (r.1 :: rest.1, rest.2)

/-- `Iterator::next` of `PeaksIter`: pull items from the (finite) source,
feed each extracted signal, and stop at the first classified item,
returning it together with the remaining source and detector state. -/
def peaksIterNext {α : Type} (signal : α → ℚ) :
    List α → PeaksDetector → Option ((α × Peak) × (List α × PeaksDetector))
  | [], _ => none
  | item :: rest, d =>
    match d.z_score_signal (signal item) with
    | (some peak, d2) => some ((item, peak), (rest, d2))
    | (none, d2) => peaksIterNext signal rest d2

/-- The full output sequence of `PeaksIter` over a finite source: every
`(item, peak)` pair the adapter yields, in order. -/
def peaksList {α : Type} (signal : α → ℚ) : List α → PeaksDetector → List (α × Peak)
  | [], _ => []
  | item :: rest, d =>
    match d.z_score_signal (signal item) with
    | (some peak, d2) => (item, peak) :: peaksList signal rest d2
    | (none, d2) => peaksList signal rest d2

/-- Reference run of the detector over a source: each item paired with the
classification its feed produced. -/
def runAll {α : Type} (signal : α → ℚ) (d : PeaksDetector) :
    List α → List (α × Option Peak)
  | [] => []
  | item :: rest =>
    let r := d.z_score_signal (signal item)
    (item, r.1) :: runAll signal r.2 rest

/-- Detector states reachable from a successful construction by feeding. -/
inductive Reachable : PeaksDetector → Prop
  | new : ∀ (L : Nat) (t i : ℚ) (d : PeaksDetector),
      PeaksDetector.new L t i = some d → Reachable d
  | feed : ∀ (d : PeaksDetector) (v : ℚ), Reachable d → Reachable (d.z_score_signal v).2

/-- Arithmetic mean, in the spec's words: used to compare `stats` against
the specified formulas. -/
def specMean (w : List ℚ) : ℚ := w.sum / w.length

/-- Population variance, in the spec's words: sum of squared deviations from
the mean divided by the window length `N` (not `N - 1`). -/
def specPopVariance (w : List ℚ) : ℚ :=
  (w.map (fun v => (v - specMean w) ^ 2)).sum / w.length

/-- The reference dataset of the test embedded (commented out) in
`src/lib.rs`, written as exact rationals. -/
def sampleData : List ℚ :=
  [1, 1, 11/10, 1, 9/10, 1, 1, 11/10, 1, 9/10, 1, 11/10, 1, 1, 9/10, 1, 1,
   11/10, 1, 1, 1, 1, 11/10, 9/10, 1, 11/10, 1, 1, 9/10, 1, 11/10, 1, 1, 11/10,
   1, 8/10, 9/10, 1, 12/10, 9/10, 1, 1, 11/10, 12/10, 1, 15/10, 1, 3, 2, 5, 3,
   2, 1, 1, 1, 9/10, 1, 1, 3, 26/10, 4, 3, 32/10, 2, 1, 1, 8/10, 4,
   4, 2, 25/10, 1, 1, 1]

/-- The classifications the reference test expects, as (index, peak) pairs. -/
def expectedPeaks : List (Nat × Peak) :=
  [(45, Peak.High), (47, Peak.High), (48, Peak.High), (49, Peak.High),
   (50, Peak.High), (51, Peak.High), (58, Peak.High), (59, Peak.High),
   (60, Peak.High), (61, Peak.High), (62, Peak.High), (63, Peak.High),
   (67, Peak.High), (68, Peak.High), (69, Peak.High), (70, Peak.High)]

section Proofs

attribute [local semireducible] Rat.add Rat.mul Rat.sub Rat.inv

theorem stats_of_ne_nil (d : PeaksDetector) (hne : d.window ≠ []) :
    d.stats = some (specMean d.window, unwrapD (decimalSqrt (specPopVariance d.window))) := by
  unfold PeaksDetector.stats
  rw [if_neg (by simpa using hne)]
  simp only [specMean, specPopVariance, pow_two]

theorem z_score_signal_full (d : PeaksDetector) (v : ℚ)
    (hne : d.window ≠ []) (hge : ¬ d.window.length < d.lag) :
    d.z_score_signal v =
      (if |v - specMean d.window| >
          d.threshold * unwrapD (decimalSqrt (specPopVariance d.window)) then
        (some (if v > specMean d.window then Peak.High else Peak.Low),
          { d with window := d.window.tail ++
              [v * d.influence + (1 - d.influence) * d.window.getLast hne] })
      else
        (none, { d with window := d.window.tail ++ [v] })) := by
  unfold PeaksDetector.z_score_signal
  rw [if_neg hge, stats_of_ne_nil d hne, List.getLast?_eq_getLast_of_ne_nil hne]

/-- C4: `stats` returns `none` exactly on an empty window; on a non-empty
window it returns the arithmetic mean and the population standard deviation
(sum of squared deviations over `N`, then square root); and it is a pure
function of the window, so repeated calls without intervening feeds agree. -/
theorem stats_mean_popstddev (d : PeaksDetector) :
    (d.stats = none ↔ d.window = []) ∧
    (d.window ≠ [] →
      d.stats = some (specMean d.window, unwrapD (decimalSqrt (specPopVariance d.window)))) ∧
    (∀ d2 : PeaksDetector, d2.window = d.window → d2.stats = d.stats) := by
  refine ⟨⟨fun h => ?_, fun h => ?_⟩, fun h => stats_of_ne_nil d h, fun d2 h => ?_⟩
  · by_contra hne
    rw [stats_of_ne_nil d hne] at h
    exact Option.noConfusion h
  · unfold PeaksDetector.stats
    rw [if_pos (by simpa using h)]
  · unfold PeaksDetector.stats
    rw [h]

/-- Witness for C4 at a concrete non-empty window. -/
theorem stats_mean_popstddev_witness :
    PeaksDetector.stats ⟨0, 0, [1, 3], 2⟩ =
      some (specMean [1, 3], unwrapD (decimalSqrt (specPopVariance [1, 3]))) ∧
    specMean [1, 3] = 2 :=
  ⟨(stats_mean_popstddev ⟨0, 0, [1, 3], 2⟩).2.1 (by decide), by decide⟩

/-- C10: the variance passed to the square root in `stats` is a sum of
squares divided by a positive length, hence nonnegative, so the square root
is never `none` and the `unwrap` cannot fail: `stats` lands in the `some`
branch of the square root on every non-empty window. -/
theorem variance_sqrt_never_fails (d : PeaksDetector) (h : d.window ≠ []) :
    0 ≤ specPopVariance d.window ∧
    decimalSqrt (specPopVariance d.window) ≠ none ∧
    d.stats = some (specMean d.window, sqrtApprox (specPopVariance d.window)) := by
  have hv : 0 ≤ specPopVariance d.window := by
    unfold specPopVariance
    apply div_nonneg
    · apply List.sum_nonneg
      intro x hx
      obtain ⟨v, _, rfl⟩ := List.mem_map.mp hx
      positivity
    · positivity
  have hs : decimalSqrt (specPopVariance d.window) =
      some (sqrtApprox (specPopVariance d.window)) := by
    unfold decimalSqrt
    rw [if_neg (not_lt.mpr hv)]
  refine ⟨hv, by rw [hs]; exact fun hc => Option.noConfusion hc, ?_⟩
  rw [stats_of_ne_nil d h, hs]
  rfl

/-- Witness for C10 at a concrete non-empty window. -/
theorem variance_sqrt_never_fails_witness :
    0 ≤ specPopVariance [2] ∧
    decimalSqrt (specPopVariance [2]) ≠ none ∧
    PeaksDetector.stats ⟨0, 0, [2], 1⟩ =
      some (specMean [2], sqrtApprox (specPopVariance [2])) :=
  variance_sqrt_never_fails ⟨0, 0, [2], 1⟩ (by decide)

/-- C6: construction panics exactly when influence is outside `[0, 1]`
(modelled as `none`), and a successful construction stores threshold and
influence unchanged (no clamping) with an empty window of capacity `lag`. -/
theorem new_influence_validation (lag : Nat) (threshold influence : ℚ) :
    (PeaksDetector.new lag threshold influence = none ↔
      influence < 0 ∨ 1 < influence) ∧
    (∀ d : PeaksDetector, PeaksDetector.new lag threshold influence = some d →
      d = ⟨threshold, influence, [], lag⟩) := by
  unfold PeaksDetector.new
  by_cases h : 0 ≤ influence ∧ influence ≤ 1
  · rw [if_pos h]
    refine ⟨⟨fun hc => Option.noConfusion hc, fun hc => ?_⟩, fun d hd => ?_⟩
    · rcases hc with hc | hc
      · exact absurd h.1 (not_le.mpr hc)
      · exact absurd h.2 (not_le.mpr hc)
    · injection hd with hd2
      exact hd2.symm
  · rw [if_neg h]
    push_neg at h
    refine ⟨⟨fun _ => ?_, fun _ => rfl⟩, fun d hd => Option.noConfusion hd⟩
    by_cases h0 : 0 ≤ influence
    · exact Or.inr (h h0)
    · exact Or.inl (not_le.mp h0)

/-- Witness for C6 at the boundary values named by the spec. -/
theorem new_influence_validation_witness :
    PeaksDetector.new 30 5 (-(1/10)) = none ∧
    PeaksDetector.new 30 5 (11/10) = none ∧
    PeaksDetector.new 30 5 0 = some ⟨5, 0, [], 30⟩ ∧
    PeaksDetector.new 30 5 1 = some ⟨5, 1, [], 30⟩ :=
  ⟨(new_influence_validation 30 5 (-(1/10))).1.mpr (Or.inl (by norm_num)),
   (new_influence_validation 30 5 (11/10)).1.mpr (Or.inr (by norm_num)),
   by decide, by decide⟩

/-- C1: on a full window (length = lag ≥ 1), feed computes mean and stddev
from the pre-eviction window, evicts the oldest entry, classifies a peak
exactly when the absolute deviation strictly exceeds threshold times stddev,
appends the influence blend of the fed value and the pre-eviction tail on a
peak (raw value otherwise), and returns High exactly when the value is
strictly above the mean (ties give Low). -/
theorem feed_full_window (d : PeaksDetector) (v : ℚ)
    (hfull : d.window.length = d.lag) (hlag : 1 ≤ d.lag) :
    ∃ mean stddev t : ℚ,
      d.stats = some (mean, stddev) ∧
      d.window.getLast? = some t ∧
      d.z_score_signal v =
        (if |v - mean| > d.threshold * stddev then
          (some (if v > mean then Peak.High else Peak.Low),
            { d with window := d.window.tail ++
                [v * d.influence + (1 - d.influence) * t] })
        else
          (none, { d with window := d.window.tail ++ [v] })) := by
  have hne : d.window ≠ [] := List.length_pos.mp (by omega)
  exact ⟨specMean d.window, unwrapD (decimalSqrt (specPopVariance d.window)),
    d.window.getLast hne, stats_of_ne_nil d hne,
    List.getLast?_eq_getLast_of_ne_nil hne,
    z_score_signal_full d v hne (by omega)⟩

/-- Witness for C1: a full lag-2 window fed an outlier. -/
theorem feed_full_window_witness :
    ∃ mean stddev t : ℚ,
      PeaksDetector.stats ⟨0, 0, [1, 2], 2⟩ = some (mean, stddev) ∧
      ([1, 2] : List ℚ).getLast? = some t ∧
      PeaksDetector.z_score_signal ⟨0, 0, [1, 2], 2⟩ 9 =
        (if |(9 : ℚ) - mean| > 0 * stddev then
          (some (if (9 : ℚ) > mean then Peak.High else Peak.Low),
            ⟨0, 0, ([1, 2] : List ℚ).tail ++ [9 * 0 + (1 - 0) * t], 2⟩)
        else
          (none, ⟨0, 0, ([1, 2] : List ℚ).tail ++ [9], 2⟩)) :=
  feed_full_window ⟨0, 0, [1, 2], 2⟩ 9 rfl (by decide)

/-- C7: when a peak is detected on a full window, influence 0 makes the
appended blend equal the pre-eviction tail value exactly, and influence 1
makes it equal the raw fed value exactly. -/
theorem influence_boundary (d : PeaksDetector) (v t : ℚ)
    (hfull : d.window.length = d.lag) (hlag : 1 ≤ d.lag)
    (hlast : d.window.getLast? = some t)
    (hpeak : (d.z_score_signal v).1.isSome = true) :
    (d.influence = 0 → (d.z_score_signal v).2.window.getLast? = some t) ∧
    (d.influence = 1 → (d.z_score_signal v).2.window.getLast? = some v) := by
  have hne : d.window ≠ [] := List.length_pos.mp (by omega)
  have ht : d.window.getLast hne = t := by
    have h2 := List.getLast?_eq_getLast_of_ne_nil hne
    rw [hlast] at h2
    exact (Option.some.inj h2).symm
  rw [z_score_signal_full d v hne (by omega)] at hpeak ⊢
  by_cases hc : |v - specMean d.window| >
      d.threshold * unwrapD (decimalSqrt (specPopVariance d.window))
  · rw [if_pos hc]
    constructor
    · intro h0
      simp only [List.getLast?_concat]
      rw [ht, h0]
      norm_num
    · intro h1
      simp only [List.getLast?_concat]
      rw [h1]
      norm_num
  · rw [if_neg hc] at hpeak
    exact absurd hpeak (by simp)

/-- Witness for C7: a peak on a full lag-1 window, influence 0 and 1. -/
theorem influence_boundary_witness :
    ((⟨0, 0, [1], 1⟩ : PeaksDetector).z_score_signal 2).1.isSome = true ∧
    ((⟨0, 0, [1], 1⟩ : PeaksDetector).z_score_signal 2).2.window.getLast? = some 1 ∧
    ((⟨0, 1, [1], 1⟩ : PeaksDetector).z_score_signal 2).2.window.getLast? = some 2 :=
  ⟨by decide,
   (influence_boundary ⟨0, 0, [1], 1⟩ 2 1 rfl (by decide) (by decide) (by decide)).1 rfl,
   (influence_boundary ⟨0, 1, [1], 1⟩ 2 1 rfl (by decide) (by decide) (by decide)).2 rfl⟩

theorem feedAll_prime (vs : List ℚ) : ∀ d : PeaksDetector,
    d.window.length + vs.length ≤ d.lag →
    feedAll d vs = (vs.map (fun _ => none), { d with window := d.window ++ vs }) := by
  induction vs with
  | nil =>
    intro d _
    simp [feedAll]
  | cons v vs ih =>
    intro d hle
    have hlt : d.window.length < d.lag := by
      simp only [List.length_cons] at hle
      omega
    have hz : d.z_score_signal v = (none, { d with window := d.window ++ [v] }) := by
      unfold PeaksDetector.z_score_signal
      rw [if_pos hlt]
    have hstep : ({ d with window := d.window ++ [v]} : PeaksDetector).window.length
        + vs.length ≤ ({ d with window := d.window ++ [v]} : PeaksDetector).lag := by
      simp only [List.length_append, List.length_singleton, List.length_cons,
        List.length_nil] at hle ⊢
      omega
    unfold feedAll
    rw [hz]
    simp only [ih _ hstep, List.map_cons, List.append_assoc, List.singleton_append]

/-- C2: from a fresh detector with lag L, each of the first L feeds appends
the fed value and returns no classification, whatever the values are. -/
theorem priming_returns_none (L : Nat) (t i : ℚ) (d : PeaksDetector)
    (hnew : PeaksDetector.new L t i = some d) (_hL : 1 ≤ L)
    (vs : List ℚ) (hlen : vs.length = L) :
    (feedAll d vs).1 = vs.map (fun _ => none) ∧ (feedAll d vs).2.window = vs := by
  have hd : d = ⟨t, i, [], L⟩ := by
    unfold PeaksDetector.new at hnew
    split at hnew
    · exact (Option.some.inj hnew).symm
    · exact Option.noConfusion hnew
  subst hd
  rw [feedAll_prime vs ⟨t, i, [], L⟩ (by simp [hlen])]
  simp

/-- Witness for C2: two huge outliers through a fresh lag-2 detector. -/
theorem priming_returns_none_witness :
    (feedAll ⟨7, 1/2, [], 2⟩ [1000000, -1000000]).1 =
      ([1000000, -1000000] : List ℚ).map (fun _ => none) ∧
    (feedAll ⟨7, 1/2, [], 2⟩ [1000000, -1000000]).2.window =
      [1000000, -1000000] :=
  priming_returns_none 2 7 (1/2) ⟨7, 1/2, [], 2⟩ (by decide) (by decide)
    [1000000, -1000000] (by decide)

theorem z_score_signal_params (d : PeaksDetector) (v : ℚ) :
    (d.z_score_signal v).2.lag = d.lag ∧
    (d.z_score_signal v).2.threshold = d.threshold ∧
    (d.z_score_signal v).2.influence = d.influence := by
  unfold PeaksDetector.z_score_signal
  split
  · exact ⟨rfl, rfl, rfl⟩
  · split
    · split
      · exact ⟨rfl, rfl, rfl⟩
      · exact ⟨rfl, rfl, rfl⟩
    · exact ⟨rfl, rfl, rfl⟩

theorem z_score_signal_nil (d : PeaksDetector) (v : ℚ) (hnil : d.window = [])
    (hge : ¬ d.window.length < d.lag) :
    d.z_score_signal v = (none, d) := by
  have hs : d.stats = none := by
    unfold PeaksDetector.stats
    rw [if_pos (by simpa using hnil)]
  have hl : d.window.getLast? = none := by
    rw [hnil]
    rfl
  unfold PeaksDetector.z_score_signal
  rw [if_neg hge, hs, hl]

theorem z_score_signal_window_length (d : PeaksDetector) (v : ℚ)
    (h : d.window.length ≤ d.lag) :
    (d.z_score_signal v).2.window.length ≤ d.lag := by
  by_cases hlt : d.window.length < d.lag
  · have hz : d.z_score_signal v = (none, { d with window := d.window ++ [v] }) := by
      unfold PeaksDetector.z_score_signal
      rw [if_pos hlt]
    rw [hz]
    simp only [List.length_append, List.length_singleton]
    omega
  · rcases eq_or_ne d.window [] with hnil | hne
    · rw [z_score_signal_nil d v hnil hlt]
      exact h
    · have hpos : 0 < d.window.length := List.length_pos.mpr hne
      rw [z_score_signal_full d v hne hlt]
      split <;>
        simp only [List.length_append, List.length_tail, List.length_singleton] <;>
        omega

theorem reachable_window_le (d : PeaksDetector) (hd : Reachable d) :
    d.window.length ≤ d.lag := by
  induction hd with
  | new L t i d hnew =>
    unfold PeaksDetector.new at hnew
    split at hnew
    · injection hnew with h2
      subst h2
      simp
    · exact Option.noConfusion hnew
  | feed d v hd ih =>
    have hp := z_score_signal_params d v
    rw [hp.1]
    exact z_score_signal_window_length d v ih

theorem feed_at_capacity (d : PeaksDetector) (v : ℚ)
    (hfull : d.window.length = d.lag) (hlag : 1 ≤ d.lag) :
    (d.z_score_signal v).2.window.length = d.lag ∧
    ∃ x : ℚ, (d.z_score_signal v).2.window = d.window.tail ++ [x] ∧
      ((d.z_score_signal v).1 = none → x = v) ∧
      (∀ p : Peak, (d.z_score_signal v).1 = some p →
        ∃ tl : ℚ, d.window.getLast? = some tl ∧
          x = v * d.influence + (1 - d.influence) * tl) := by
  have hne : d.window ≠ [] := List.length_pos.mp (by omega)
  have hpos : 0 < d.window.length := List.length_pos.mpr hne
  rw [z_score_signal_full d v hne (by omega)]
  by_cases hc : |v - specMean d.window| >
      d.threshold * unwrapD (decimalSqrt (specPopVariance d.window))
  · rw [if_pos hc]
    refine ⟨?_, v * d.influence + (1 - d.influence) * d.window.getLast hne,
      rfl, fun hn => Option.noConfusion hn, fun p _ => ?_⟩
    · simp only [List.length_append, List.length_tail, List.length_singleton]
      omega
    · exact ⟨d.window.getLast hne, List.getLast?_eq_getLast_of_ne_nil hne, rfl⟩
  · rw [if_neg hc]
    refine ⟨?_, v, rfl, fun _ => rfl, fun p hp => Option.noConfusion hp⟩
    simp only [List.length_append, List.length_tail, List.length_singleton]
    omega

/-- C3 (amended with lag ≥ 1 for the turnover half): every reachable state
keeps the window length at most lag, and on a full window with lag ≥ 1 a
feed evicts exactly the oldest entry and appends exactly one entry — the raw
value when no peak is reported, the influence blend with the pre-eviction
tail when a peak is reported — keeping the length at lag. -/
theorem window_length_invariant (d : PeaksDetector) (hd : Reachable d) :
    d.window.length ≤ d.lag ∧
    (∀ v : ℚ, d.window.length = d.lag → 1 ≤ d.lag →
      (d.z_score_signal v).2.window.length = d.lag ∧
      ∃ x : ℚ, (d.z_score_signal v).2.window = d.window.tail ++ [x] ∧
        ((d.z_score_signal v).1 = none → x = v) ∧
        (∀ p : Peak, (d.z_score_signal v).1 = some p →
          ∃ tl : ℚ, d.window.getLast? = some tl ∧
            x = v * d.influence + (1 - d.influence) * tl)) :=
  ⟨reachable_window_le d hd, fun v hfull hlag => feed_at_capacity d v hfull hlag⟩

/-- Counterexample to C3 as stated: a detector constructed with lag 0 is
reachable and its (empty) window already has length lag, yet a feed is a
non-peak that inserts nothing — the window stays `[]` instead of becoming
`tail ++ [value]` as the claim requires. -/
theorem window_length_invariant_counterexample :
    PeaksDetector.new 0 0 0 = some ⟨0, 0, [], 0⟩ ∧
    (⟨0, 0, [], 0⟩ : PeaksDetector).window.length = (⟨0, 0, [], 0⟩ : PeaksDetector).lag ∧
    (PeaksDetector.z_score_signal ⟨0, 0, [], 0⟩ 1).1 = none ∧
    (PeaksDetector.z_score_signal ⟨0, 0, [], 0⟩ 1).2.window ≠
      (⟨0, 0, [], 0⟩ : PeaksDetector).window.tail ++ [1] := by
  refine ⟨by decide, rfl, rfl, ?_⟩
  intro hc
  exact List.noConfusion hc

/-- Witness for C3 (amended), at a reachable full lag-1 detector. -/
theorem window_length_invariant_witness :
    (⟨0, 0, [1], 1⟩ : PeaksDetector).window.length ≤ (⟨0, 0, [1], 1⟩ : PeaksDetector).lag ∧
    ((PeaksDetector.z_score_signal ⟨0, 0, [1], 1⟩ 5).2.window.length =
        (⟨0, 0, [1], 1⟩ : PeaksDetector).lag ∧
      ∃ x : ℚ, (PeaksDetector.z_score_signal ⟨0, 0, [1], 1⟩ 5).2.window =
          (⟨0, 0, [1], 1⟩ : PeaksDetector).window.tail ++ [x] ∧
        ((PeaksDetector.z_score_signal ⟨0, 0, [1], 1⟩ 5).1 = none → x = 5) ∧
        (∀ p : Peak, (PeaksDetector.z_score_signal ⟨0, 0, [1], 1⟩ 5).1 = some p →
          ∃ tl : ℚ, (⟨0, 0, [1], 1⟩ : PeaksDetector).window.getLast? = some tl ∧
            x = 5 * (⟨0, 0, [1], 1⟩ : PeaksDetector).influence +
              (1 - (⟨0, 0, [1], 1⟩ : PeaksDetector).influence) * tl)) := by
  have h0 : Reachable (⟨0, 0, [], 1⟩ : PeaksDetector) :=
    Reachable.new 1 0 0 ⟨0, 0, [], 1⟩ (by decide)
  have h1 : Reachable ((PeaksDetector.z_score_signal ⟨0, 0, [], 1⟩ 1).2) :=
    Reachable.feed ⟨0, 0, [], 1⟩ 1 h0
  have he : (PeaksDetector.z_score_signal ⟨0, 0, [], 1⟩ 1).2 =
      (⟨0, 0, [1], 1⟩ : PeaksDetector) := by decide
  rw [he] at h1
  have h := window_length_invariant ⟨0, 0, [1], 1⟩ h1
  exact ⟨h.1, h.2 5 rfl (by decide)⟩

theorem z_score_signal_zero_lag (t i v : ℚ) :
    PeaksDetector.z_score_signal ⟨t, i, [], 0⟩ v = (none, ⟨t, i, [], 0⟩) := rfl

/-- C8: a detector constructed with lag 0 has no stats (empty window), and
every feed — routed to the full-window branch by the capacity check —
returns no classification and leaves the state unchanged, forever, with no
panic and no division: the window stays empty. -/
theorem lag_zero_degenerate (t i : ℚ) (d : PeaksDetector)
    (hnew : PeaksDetector.new 0 t i = some d) (vs : List ℚ) :
    d.stats = none ∧ d.window = [] ∧
    feedAll d vs = (vs.map (fun _ => none), d) := by
  have hd : d = ⟨t, i, [], 0⟩ := by
    unfold PeaksDetector.new at hnew
    split at hnew
    · exact (Option.some.inj hnew).symm
    · exact Option.noConfusion hnew
  subst hd
  refine ⟨rfl, rfl, ?_⟩
  induction vs with
  | nil => rfl
  | cons v vs ih =>
    unfold feedAll
    rw [z_score_signal_zero_lag]
    simp only [ih, List.map_cons]

/-- Witness for C8: a lag-0 detector fed three values. -/
theorem lag_zero_degenerate_witness :
    PeaksDetector.stats ⟨3, 1, [], 0⟩ = none ∧
    (⟨3, 1, [], 0⟩ : PeaksDetector).window = [] ∧
    feedAll ⟨3, 1, [], 0⟩ [42, -7, 100] =
      (([42, -7, 100] : List ℚ).map (fun _ => none), ⟨3, 1, [], 0⟩) :=
  lag_zero_degenerate 3 1 ⟨3, 1, [], 0⟩ (by decide) [42, -7, 100]

/-- C9: the adapter yields exactly the source items whose feed returned a
classification, each paired with that classification, in source order and
each at most once (its yields, projected to items, form a sublist of the
source); an exhausted source yields nothing. -/
theorem adapter_yields_exactly_classified (α : Type) (signal : α → ℚ)
    (d : PeaksDetector) (src : List α) :
    peaksList signal src d =
      (runAll signal d src).filterMap (fun x => x.2.map (fun p => (x.1, p))) ∧
    List.Sublist ((peaksList signal src d).map Prod.fst) src ∧
    peaksIterNext signal ([] : List α) d = none := by
  refine ⟨?_, ?_, rfl⟩
  · induction src generalizing d with
    | nil => rfl
    | cons item rest ih =>
      simp only [peaksList, runAll, List.filterMap_cons]
      rcases d.z_score_signal (signal item) with ⟨o, d2⟩
      cases o with
      | none => exact ih d2
      | some p => simp [ih d2]
  · induction src generalizing d with
    | nil => exact List.Sublist.refl []
    | cons item rest ih =>
      simp only [peaksList]
      rcases d.z_score_signal (signal item) with ⟨o, d2⟩
      cases o with
      | none => exact List.Sublist.cons item (ih d2)
      | some p => exact List.Sublist.cons₂ item (ih d2)

/-- Counterexample to C5 as stated: the reference dataset embedded in the
source has 74 samples, not 71. -/
theorem sample_data_length_counterexample :
    sampleData.length = 74 ∧ ¬ sampleData.length = 71 := by
  refine ⟨by decide, by decide⟩

/-- C5 (amended to the dataset's actual 74 samples): feeding the reference
sequence through a detector with lag 30, threshold 5, influence 0, taking
the raw value as the signal, yields High at exactly the source indices
45, 47-51, 58-63 and 67-70, and no classification at every other index. -/
theorem sample_data_scenario :
    PeaksDetector.new 30 5 0 = some ⟨5, 0, [], 30⟩ ∧
    (peaksList (fun e => e.2) sampleData.enum ⟨5, 0, [], 30⟩).map
      (fun x => (x.1.1, x.2)) = expectedPeaks := by
  constructor
  · decide
  · set_option maxRecDepth 10000 in decide

end Proofs
